import Mathlib

/-!
Verification development for the `sistema-ri` information-retrieval backend.

The definitions below are a shallow embedding of the Python sources:
* `src/backend/indexing.py`  — text normalisation (`process_document`), the
  two-pass index build (`IndexingEngine.process_corpus`,
  `_pass1_calculate_idf_only`, `_pass2_build_index_with_corpus`,
  `_save_index`) and snapshot loading (`IndexingEngine.load_index`);
* `src/backend/search_engine.py` — BM25 scoring and ranking
  (`SearchEngine.search`, `_process_query`, `_calculate_avgdl`).

Strings are modelled as `List Char` (ASCII fragment of Python `str`), Python
floats as `ℚ` wherever the code only does field arithmetic, and as `ℝ` where
the code calls `math.log`.  External NLTK calls (`word_tokenize`,
`SnowballStemmer.stem`, the stopword set) are opaque to the repository, so
they enter the embedding as explicit parameters shared by the two
normalisation pipelines exactly as the two call sites share them.
-/

namespace SistemaRI

/-! ## Character classes used by the regular expressions in the source

`indexing.py` lines 42-45 and `search_engine.py` lines 132-134 use the regex
classes `\S`/`\s` and `\w`.  We model their ASCII fragment. -/

/-- ASCII whitespace, the `\s` class of the Python regexes. -/
def isSpaceChar (c : Char) : Bool :=
  c = ' ' || c = '\t' || c = '\n' || c = '\r' || c = '\x0b' || c = '\x0c'

/-- ASCII word characters, the `\w` class: alphanumerics and underscore. -/
def isWordChar (c : Char) : Bool :=
  c.isAlphanum || c = '_'

/-! ## `re.sub(r'http\S+|www.\S+', '', text)` (indexing.py line 43)

The regex engine scans left to right; at each position it first tries
`http\S+` (literal `http` then a maximal nonempty run of non-space
characters), then `www.\S+` (literal `www`, one arbitrary non-newline
character for the unescaped dot, then a maximal nonempty run of non-space
characters).  A match is deleted and scanning resumes after it. -/

/-- Length of a `http\S+` match starting at the head of `s`, if any. -/
def httpMatchLen (s : List Char) : Option Nat :=
  match s with
  | 'h' :: 't' :: 't' :: 'p' :: rest =>
    let run := rest.takeWhile (fun c => !isSpaceChar c)
    if run.length = 0 then none else some (4 + run.length)
  | _ => none

/-- Length of a `www.\S+` match starting at the head of `s`, if any. -/
def wwwMatchLen (s : List Char) : Option Nat :=
  match s with
  | 'w' :: 'w' :: 'w' :: d :: rest =>
    if d = '\n' then none
    else
      let run := rest.takeWhile (fun c => !isSpaceChar c)
      if run.length = 0 then none else some (4 + run.length)
  | _ => none

/-- One left-to-right deletion sweep of `re.sub(r'http\S+|www.\S+', '', ·)`.
The fuel argument only certifies termination: every step consumes at least
one character, so fuel `s.length` (as supplied by `stripUrls`) never runs
out. -/
def stripUrlsFuel : Nat → List Char → List Char
  | 0, s => s
  | _ + 1, [] => []
  | fuel + 1, c :: cs =>
    match httpMatchLen (c :: cs) with
    | some n => stripUrlsFuel fuel (List.drop n (c :: cs))
    | none =>
      match wwwMatchLen (c :: cs) with
      | some n => stripUrlsFuel fuel (List.drop n (c :: cs))
      | none => c :: stripUrlsFuel fuel cs

/-- `re.sub(r'http\S+|www.\S+', '', text)`, indexing.py line 43. -/
def stripUrls (s : List Char) : List Char :=
  stripUrlsFuel s.length s

/-- `re.sub(r'[^\w\s]', ' ', text)`, indexing.py line 44 and
search_engine.py line 133: characters that are neither word characters nor
whitespace become a space; everything else is kept. -/
def nonWordToSpace (c : Char) : Char :=
  if !isWordChar c && !isSpaceChar c then ' ' else c

/-- Helper for `re.sub(r'\s+', ' ', ·)`: the flag records whether the
previous character was part of a whitespace run already emitted as one
space. -/
def collapseSpacesAux : Bool → List Char → List Char
  | _, [] => []
  | afterSpace, c :: cs =>
    if isSpaceChar c then
      if afterSpace then collapseSpacesAux true cs
      else ' ' :: collapseSpacesAux true cs
    else c :: collapseSpacesAux false cs

/-- `re.sub(r'\s+', ' ', text)`, indexing.py line 45 and
search_engine.py line 134. -/
def collapseSpaces (s : List Char) : List Char :=
  collapseSpacesAux false s

/-- Python `str.strip()`: remove leading and trailing whitespace. -/
def pyStrip (s : List Char) : List Char :=
  ((s.dropWhile isSpaceChar).reverse.dropWhile isSpaceChar).reverse

/-- Helper for Python `str.split()` with no separator: accumulates the
current token (reversed) and splits on whitespace runs, discarding empty
tokens. -/
def pySplitAux : List Char → List Char → List (List Char)
  | acc, [] => if acc.isEmpty then [] else [acc.reverse]
  | acc, c :: cs =>
    if isSpaceChar c then
      if acc.isEmpty then pySplitAux [] cs else acc.reverse :: pySplitAux [] cs
    else pySplitAux (c :: acc) cs

/-- Python `text.split()` — the tokenizer fallback of both pipelines
(indexing.py line 51, search_engine.py line 140). -/
def pySplit (s : List Char) : List (List Char) :=
  pySplitAux [] s

/-- A normalised token; vocabulary keys of the index. -/
abbrev Term := List Char

/-- Document identifiers (keys of the Python corpus dict). -/
abbrev DocId := String

/-! ## The two normalisation pipelines

Both pipelines receive the same external NLTK components:
`tok` models `word_tokenize`, returning `none` when the call raises (the
`try`/`except` in both sources falls back to `str.split()`); `stem` models
`SnowballStemmer.stem`; `stop_words` models the stopword set.  The engine
constructors instantiate them with the same English components by default
(`indexing.py` lines 82-83, `search_engine.py` lines 23-24). -/

/-- `process_document` (indexing.py lines 37-59), the index-time
normalisation: lower-case, delete URL-like substrings, map non-word
non-space characters to spaces, collapse whitespace and strip, tokenize
(with the `str.split()` fallback), drop stopwords and tokens of length
`≤ 2`, stem. -/
def process_document (tok : List Char → Option (List Term)) (stem : Term → Term)
    (stop_words : List Term) (text : List Char) : List Term :=
  let t1 := text.map Char.toLower
  let t2 := stripUrls t1
  let t3 := t2.map nonWordToSpace
  let t4 := pyStrip (collapseSpaces t3)
  let tokens :=
    match tok t4 with
    | some ts => ts
    | none => pySplit t4
  let kept := tokens.filter (fun t => !stop_words.contains t && decide (2 < t.length))
  kept.map stem

/-- `SearchEngine._process_query` (search_engine.py lines 129-151), the
query-time normalisation.  Note: unlike `process_document` it has no URL
deletion step, and it returns `[]` early when no token survives the
stopword/length filter. -/
def _process_query (tok : List Char → Option (List Term)) (stem : Term → Term)
    (stop_words : List Term) (query : List Char) : List Term :=
  let q1 := query.map Char.toLower
  let q2 := q1.map nonWordToSpace
  let q3 := pyStrip (collapseSpaces q2)
  let tokens :=
    match tok q3 with
    | some ts => ts
    | none => pySplit q3
  let kept := tokens.filter (fun t => !stop_words.contains t && decide (2 < t.length))
  if kept.isEmpty then [] else kept.map stem

/-! ## The BM25 search engine (search_engine.py)

Python floats are modelled as `ℚ`: `SearchEngine.search` only performs
field arithmetic (`+`, `*`, `/`, `min`, `max`) on the stored statistics.
Python dicts keyed by strings appear as association lists in insertion
order (Python 3.7+ dicts preserve insertion order, which is what the final
`sorted` call iterates over); keys are unique in every dict the source
builds. -/

/-- Association-list lookup, modelling Python `dict.__getitem__`. -/
def alookup {α β : Type} [DecidableEq α] (k : α) : List (α × β) → Option β
  | [] => none
  | (a, v) :: rest => if a = k then some v else alookup k rest

/-- `d[k] += x` on a Python `defaultdict` whose default is zero (the
`scores[doc_id] +=` of search_engine.py line 85 and the
`document_frequency[term] += 1` of indexing.py line 216): update the key
in place keeping its position, or append the new key at the end, as
Python dicts do. -/
def dictAdd {α M : Type} [DecidableEq α] [Add M] (l : List (α × M)) (k : α) (x : M) :
    List (α × M) :=
  match l with
  | [] => [(k, x)]
  | (a, v) :: rest =>
    if a = k then (a, v + x) :: rest else (a, v) :: dictAdd rest k x

/-- `self.k1 = 1.5` (search_engine.py line 27). -/
def k1 : ℚ := 1.5

/-- `self.b = 0.75` (search_engine.py line 28). -/
def b : ℚ := 0.75

/-- The in-memory state a `SearchEngine` reads: `inverted_index`
(term → doc_id → raw frequency), `document_index` (doc_id → `token_count`,
the only document field scoring reads), and the `idf` table. -/
structure EngineState where
  inverted_index : List (Term × List (DocId × Nat))
  document_index : List (DocId × Nat)
  idf : List (Term × ℚ)

/-- `SearchEngine._calculate_avgdl` (search_engine.py lines 39-47): `1`
for an empty document index, otherwise the total `token_count` divided by
`max(1, len(document_index))`. -/
def _calculate_avgdl (document_index : List (DocId × Nat)) : ℚ :=
  if document_index.isEmpty then 1
  else ((document_index.map (fun p => (p.2 : ℚ))).sum) / (max 1 document_index.length : ℕ)

/-- The BM25 partial score of search_engine.py lines 81-85:
`idf * (freq * (k1 + 1)) / (freq + k1 * (1 - b + b * (doc_len / avgdl)))`,
written as `idf * (numerator / denominator)` exactly as the source does. -/
def bm25_contribution (idfT freq doc_len avgdl : ℚ) : ℚ :=
  let numerator := freq * (k1 + 1)
  let denominator := freq + k1 * (1 - b + b * (doc_len / avgdl))
  idfT * (numerator / denominator)

/-- The inner loop of search_engine.py lines 77-85: fold one posting into
the score accumulator via `scores[doc_id] +=`.  `doc_len` is
`document_index.get(doc_id, {}).get('token_count', 1)`. -/
def foldPosting (document_index : List (DocId × Nat)) (avgdl idfT : ℚ)
    (scores : List (DocId × ℚ)) (p : DocId × Nat) : List (DocId × ℚ) :=
  let doc_len : ℚ := ((alookup p.1 document_index).getD 1 : ℕ)
  dictAdd scores p.1 (bm25_contribution idfT (p.2 : ℚ) doc_len avgdl)

/-- The outer loop body of search_engine.py lines 70-85: a query term not
in the inverted index contributes nothing; otherwise its IDF is
`idf.get(term, 0)` and every posting is folded in. -/
def scoreTerm (st : EngineState) (avgdl : ℚ) (scores : List (DocId × ℚ))
    (term : Term) : List (DocId × ℚ) :=
  match alookup term st.inverted_index with
  | none => scores
  | some docs_with_term =>
    let idfT := (alookup term st.idf).getD 0
    docs_with_term.foldl (foldPosting st.document_index avgdl idfT) scores

/-- The raw BM25 accumulation over the whole processed query
(search_engine.py lines 67-86). -/
def computeScores (st : EngineState) (query_terms : List Term) : List (DocId × ℚ) :=
  query_terms.foldl (scoreTerm st (_calculate_avgdl st.document_index)) []

/-- `max_theoretical = len(query_terms) * 10` (search_engine.py line 94) —
counted over the full processed query term list. -/
def max_theoretical (query_terms : List Term) : ℚ :=
  (query_terms.length : ℚ) * 10

/-- Python `max` over a nonempty iterable (search_engine.py line 95); the
`[]` case is unreachable at the call site, which is guarded by
`if not scores`. -/
def pyMax (l : List ℚ) : ℚ :=
  match l with
  | [] => 0
  | x :: xs => xs.foldl max x

/-- `SearchEngine.search` restricted to the ranking-relevant output: the
ranked `(doc_id, score)` pairs (the dropped `Hit` fields — title, snippet,
matching terms — are read-only decoration of the same ranked list).
Mirrors lines 56-120: empty-index/empty-query/no-match guards, raw BM25
accumulation, rescaling `min(99, raw / max(max_theoretical, max_score) *
100)`, stable sort by score descending, truncation to `top_k`.  Python
`sorted(..., reverse=True)` is a stable sort; `List.insertionSort` with
`·.2 ≥ ·.2` is the same stable descending sort (and the specification
leaves tie order unspecified). -/
def search (st : EngineState) (query_terms : List Term) (top_k : Nat) :
    List (DocId × ℚ) :=
  if st.inverted_index.isEmpty || st.idf.isEmpty then []
  else if query_terms.isEmpty then []
  else
    let scores := computeScores st query_terms
    if scores.isEmpty then []
    else
      let max_score := pyMax (scores.map Prod.snd)
      let normalized := scores.map (fun p =>
        (p.1, min 99 ((p.2 / max (max_theoretical query_terms) max_score) * 100)))
      let ranked := normalized.insertionSort (fun x y => x.2 ≥ y.2)
      ranked.take top_k

/-! ## The two-pass index build (indexing.py)

The worker pool only maps the pure `process_document` over each batch in
order (`pool.map` preserves order), and the fold into the shared counters
is sequential, so the build is the sequential fold below over
`corpus_items`.  Pass 1 and Pass 2 both re-run `process_document`; it is a
pure function of its inputs, so both passes see the same token lists. -/

/-- The per-document step of Pass 1 (indexing.py lines 213-216): bump the
document-frequency counter (`document_frequency[term] += 1` on a
`defaultdict(int)`) once for each member of `set(tokens)`.  The Python set
iterates in unspecified order; `List.dedup` is one enumeration of it, and
the resulting counter values are order-independent. -/
def pass1DocFold (df : List (Term × Nat)) (tokens : List Term) : List (Term × Nat) :=
  tokens.dedup.foldl (fun df2 t => dictAdd df2 t 1) df

/-- The Pass-1 document-frequency table over the whole corpus
(indexing.py lines 185-232), with documents given by their normalised
token lists. -/
def pass1_df (corpus : List (DocId × List Term)) : List (Term × Nat) :=
  corpus.foldl (fun df p => pass1DocFold df p.2) []

/-- The document index built in Pass 1 (indexing.py lines 207-211),
restricted to the `token_count` field scoring reads
(`token_count = len(tokens)`); corpus keys are unique since the corpus is
a Python dict. -/
def pass1_document_index (corpus : List (DocId × List Term)) : List (DocId × Nat) :=
  corpus.map (fun p => (p.1, p.2.length))

/-- The smoothed IDF weight of indexing.py line 241:
`math.log((1 + total_documents) / (1 + docs_with_term)) + 1`. -/
noncomputable def idfWeight (total_documents docs_with_term : Nat) : ℝ :=
  Real.log ((1 + (total_documents : ℝ)) / (1 + (docs_with_term : ℝ))) + 1

/-- The IDF table computed at the end of Pass 1 (indexing.py lines
237-243): every term of the document-frequency table gets the smoothed
weight; the dead `else` branch stores `0`. -/
noncomputable def pass1_idf (total_documents : Nat) (df : List (Term × Nat)) :
    List (Term × ℝ) :=
  df.map (fun p => (p.1, if 0 < p.2 then idfWeight total_documents p.2 else 0))

/-- `self.inverted_index[term][doc_id] = freq` on the nested defaultdict
(indexing.py line 268): each document is processed once, so its id is new
in the term's posting dict and is appended in insertion order. -/
def addPosting (inv : List (Term × List (DocId × Nat))) (t : Term)
    (d : DocId) (f : Nat) : List (Term × List (DocId × Nat)) :=
  match inv with
  | [] => [(t, [(d, f)])]
  | (t0, pl) :: rest =>
    if t0 = t then (t0, pl ++ [(d, f)]) :: rest
    else (t0, pl) :: addPosting rest t d f

/-- Pass 2 (indexing.py lines 247-284): fold each document's
`Counter(tokens)` — first-occurrence order over distinct terms, with the
occurrence count — into the global posting lists. -/
def pass2_build_index (corpus : List (DocId × List Term)) :
    List (Term × List (DocId × Nat)) :=
  corpus.foldl
    (fun inv p =>
      p.2.dedup.foldl (fun inv2 t => addPosting inv2 t p.1 (p.2.count t)) inv)
    []

/-! ## Persistence (indexing.py `_save_index` / `load_index`)

A persisted snapshot is the pickled dict of `_save_index` (lines
291-298).  `load_index` reads it back field by field; a Python dict may be
missing keys, which `data['...']` turns into a `KeyError` caught by the
surrounding `try`, while `data.get` supplies defaults.  `Option` on each
field models key presence. -/

/-- The pickled snapshot dict written by `_save_index`, restricted to the
four fields `load_index` consumes (`vocabulary_size`/`document_count` are
written but never read back). -/
structure SnapshotData where
  inverted_index : Option (List (Term × List (DocId × Nat)))
  document_index : Option (List (DocId × Nat))
  idf : Option (List (Term × ℝ))
  total_documents : Option Nat

/-- The engine's in-memory state mutated by `load_index` (the fields set
in indexing.py lines 348-355). -/
structure MemState where
  inverted_index : List (Term × List (DocId × Nat))
  document_index : List (DocId × Nat)
  idf : List (Term × ℝ)
  total_documents : Nat

/-- What the filesystem presents to `load_index`: no snapshot file at all,
a file whose deserialisation raises (caught, line 338/344), or a
successfully deserialised dict. -/
inductive SnapshotInput where
  | missing
  | unreadable
  | parsed (d : SnapshotData)

/-- `IndexingEngine.load_index` (indexing.py lines 325-363).  On a parsed
snapshot the `try` block first resets `self.inverted_index` to a fresh
empty defaultdict (line 348), then reads `data['inverted_index']`
(KeyError if absent), rebuilds it entry by entry, then reads
`data['document_index']` (KeyError if absent), then `data.get('idf', {})`
and `data.get('total_documents', len(self.document_index))`; the `except`
only returns `False`, keeping whatever assignments already happened. -/
def load_index (prior : MemState) (input : SnapshotInput) : Bool × MemState :=
  match input with
  | .missing => (false, prior)
  | .unreadable => (false, prior)
  | .parsed d =>
    match d.inverted_index with
    | none => (false, { prior with inverted_index := [] })
    | some inv =>
      match d.document_index with
      | none => (false, { prior with inverted_index := inv })
      | some di =>
        (true,
          { inverted_index := inv
            document_index := di
            idf := d.idf.getD []
            total_documents := d.total_documents.getD di.length })

/-- The outcome of `IndexingEngine.process_corpus` (indexing.py lines
117-183): the snapshot handed to `_save_index` (always written — there is
no emptiness check on any path) and the fields of the returned stats dict
that do not depend on the monitoring configuration. -/
structure BuildResult where
  saved : Option SnapshotData
  documents_processed : Nat
  vocabulary_size : Nat
  index_size : Nat
  status : String

/-- `IndexingEngine.process_corpus` (indexing.py lines 117-183) over a raw
corpus: run Pass 1 (document index, document frequency, IDF), run Pass 2
(posting lists), write the snapshot, and report success.  Both passes
apply `process_document` with the engine's tokenizer/stemmer/stopword
components to every document. -/
noncomputable def process_corpus (tok : List Char → Option (List Term))
    (stem : Term → Term) (stop_words : List Term)
    (corpus : List (DocId × List Char)) : BuildResult :=
  let corpusTokens := corpus.map (fun p => (p.1, process_document tok stem stop_words p.2))
  let total_documents := corpus.length
  let df := pass1_df corpusTokens
  let idfTable := pass1_idf total_documents df
  let document_index := pass1_document_index corpusTokens
  let inverted_index := pass2_build_index corpusTokens
  { saved := some
      { inverted_index := some inverted_index
        document_index := some document_index
        idf := some idfTable
        total_documents := some total_documents }
    documents_processed := total_documents
    vocabulary_size := idfTable.length
    index_size := inverted_index.length
    status := "success" }

/-! ## Association-list accumulation lemmas -/

theorem alookup_dictAdd_getD {α M : Type} [DecidableEq α] [AddZeroClass M]
    (l : List (α × M)) (k k' : α) (x : M) :
    (alookup k' (dictAdd l k x)).getD 0 =
      (alookup k' l).getD 0 + (if k = k' then x else 0) := by
  induction l with
  | nil =>
    by_cases h : k = k' <;> simp [dictAdd, alookup, h]
  | cons p rest ih =>
    obtain ⟨a, v⟩ := p
    by_cases h1 : a = k
    · subst h1
      by_cases h2 : a = k' <;> simp [dictAdd, alookup, h2, add_assoc]
    · by_cases h2 : a = k'
      · subst h2
        have hkk : ¬ k = a := fun hh => h1 hh.symm
        simp [dictAdd, alookup, h1, hkk]
      · simp [dictAdd, alookup, h1, h2, ih]

theorem alookup_dictAdd_isSome {α M : Type} [DecidableEq α] [Add M]
    (l : List (α × M)) (k k' : α) (x : M) :
    (alookup k' (dictAdd l k x)).isSome =
      ((alookup k' l).isSome || decide (k = k')) := by
  induction l with
  | nil =>
    by_cases h : k = k' <;> simp [dictAdd, alookup, h]
  | cons p rest ih =>
    obtain ⟨a, v⟩ := p
    by_cases h1 : a = k
    · subst h1
      by_cases h2 : a = k' <;> simp [dictAdd, alookup, h2]
    · by_cases h2 : a = k'
      · subst h2
        simp [dictAdd, alookup, h1]
      · simp [dictAdd, alookup, h1, h2, ih]

/-- Looking a key up in a table whose values were mapped pointwise. -/
theorem alookup_map_snd {α β γ : Type} [DecidableEq α]
    (g : β → γ) (l : List (α × β)) (k : α) :
    alookup k (l.map (fun p => (p.1, g p.2))) =
      (alookup k l).map g := by
  induction l with
  | nil => simp [alookup]
  | cons p rest ih =>
    by_cases h : p.1 = k
    · subst h; simp [alookup, ih]
    · simp [alookup, h, ih]

/-! ## Characterising the raw BM25 accumulation -/

/-- The total amount one occurrence of query term `t` contributes to the
raw score of document `d` in the loop of search_engine.py lines 70-85:
zero for a term outside the inverted index, otherwise one
`bm25_contribution` per posting of `t` whose document is `d`. -/
def termScoreAt (st : EngineState) (avgdl : ℚ) (t : Term) (d : DocId) : ℚ :=
  match alookup t st.inverted_index with
  | none => 0
  | some pl =>
    ((pl.filter (fun p => p.1 = d)).map (fun p =>
      bm25_contribution ((alookup t st.idf).getD 0) (p.2 : ℚ)
        (((alookup p.1 st.document_index).getD 1 : ℕ) : ℚ) avgdl)).sum

theorem alookup_foldPosting_getD (document_index : List (DocId × Nat))
    (avgdl idfT : ℚ) (pl : List (DocId × Nat)) (scores : List (DocId × ℚ))
    (d : DocId) :
    (alookup d (pl.foldl (foldPosting document_index avgdl idfT) scores)).getD 0 =
      (alookup d scores).getD 0 +
        ((pl.filter (fun p => p.1 = d)).map (fun p =>
          bm25_contribution idfT (p.2 : ℚ)
            (((alookup p.1 document_index).getD 1 : ℕ) : ℚ) avgdl)).sum := by
  induction pl generalizing scores with
  | nil => simp
  | cons p rest ih =>
    obtain ⟨pd, pf⟩ := p
    by_cases h : pd = d
    · subst h
      simp [ih, foldPosting, alookup_dictAdd_getD, add_assoc, add_comm]
    · simp [ih, foldPosting, alookup_dictAdd_getD, h]

theorem alookup_scoreTerm_getD (st : EngineState) (avgdl : ℚ)
    (scores : List (DocId × ℚ)) (t : Term) (d : DocId) :
    (alookup d (scoreTerm st avgdl scores t)).getD 0 =
      (alookup d scores).getD 0 + termScoreAt st avgdl t d := by
  unfold scoreTerm termScoreAt
  cases alookup t st.inverted_index with
  | none => simp
  | some pl => simpa using alookup_foldPosting_getD st.document_index avgdl _ pl scores d

theorem alookup_scoreTerm_fold_getD (st : EngineState) (avgdl : ℚ)
    (query_terms : List Term) (scores : List (DocId × ℚ)) (d : DocId) :
    (alookup d (query_terms.foldl (scoreTerm st avgdl) scores)).getD 0 =
      (alookup d scores).getD 0 +
        (query_terms.map (fun t => termScoreAt st avgdl t d)).sum := by
  induction query_terms generalizing scores with
  | nil => simp
  | cons t rest ih => simp [ih, alookup_scoreTerm_getD, add_assoc]

/-- The raw score `search` accumulates for document `d` is the sum over
query-term occurrences of `termScoreAt`. -/
theorem computeScores_getD (st : EngineState) (query_terms : List Term)
    (d : DocId) :
    (alookup d (computeScores st query_terms)).getD 0 =
      (query_terms.map
        (fun t => termScoreAt st (_calculate_avgdl st.document_index) t d)).sum := by
  simpa [computeScores, alookup] using
    alookup_scoreTerm_fold_getD st (_calculate_avgdl st.document_index)
      query_terms [] d

/-! ## Claim C2 — the BM25 score contribution formula -/

/-- Stated from the claim's words, for comparison with the code: the score
the specification says query term `t` adds to document `d` — for each
posting `(doc_id, freq)` of `t` with `doc_id = d`,
`idf(t) * (freq * (k1 + 1)) / (freq + k1 * (1 - b + b * (doc_len / avgdl)))`
with `k1 = 1.5`, `b = 0.75`, `doc_len` the document's `token_count` and
`avgdl` the corpus-wide average. -/
def claimedTermScore (st : EngineState) (t : Term) (d : DocId) : ℚ :=
  match alookup t st.inverted_index with
  | none => 0
  | some pl =>
    ((pl.filter (fun p => p.1 = d)).map (fun p =>
      (alookup t st.idf).getD 0 *
        ((p.2 : ℚ) * ((1.5 : ℚ) + 1) /
          ((p.2 : ℚ) + (1.5 : ℚ) * (1 - (0.75 : ℚ) + (0.75 : ℚ) *
            ((((alookup d st.document_index).getD 1 : ℕ) : ℚ) /
              _calculate_avgdl st.document_index)))))).sum

theorem termScoreAt_eq_claimedTermScore (st : EngineState) (t : Term) (d : DocId) :
    termScoreAt st (_calculate_avgdl st.document_index) t d =
      claimedTermScore st t d := by
  unfold termScoreAt claimedTermScore
  cases alookup t st.inverted_index with
  | none => rfl
  | some pl =>
    refine congrArg List.sum (List.map_congr_left ?_)
    intro p hp
    have hpd : p.1 = d := by
      have := List.of_mem_filter hp
      exact of_decide_eq_true this
    rw [hpd]
    simp [bm25_contribution, k1, b]

/-- C2: for every query term occurrence and every posting, the raw score
accumulated per document is exactly the claimed BM25 sum (`k1 = 1.5`,
`b = 0.75`, `doc_len` the document's stored `token_count` with Python's
`.get` default `1`, `avgdl` the load-time corpus average). -/
theorem c2_bm25_raw_score (st : EngineState) (query_terms : List Term)
    (d : DocId) :
    (alookup d (computeScores st query_terms)).getD 0 =
      (query_terms.map (fun t => claimedTermScore st t d)).sum := by
  rw [computeScores_getD]
  exact congrArg List.sum
    (List.map_congr_left fun t _ => termScoreAt_eq_claimedTermScore st t d)

/-! ## Pass 1 document-frequency counting (claims C3, C4) -/

theorem foldl_dictAdd_one_getD (l : List Term) (hl : l.Nodup)
    (df0 : List (Term × Nat)) (t : Term) :
    (alookup t (l.foldl (fun df u => dictAdd df u 1) df0)).getD 0 =
      (alookup t df0).getD 0 + (if t ∈ l then 1 else 0) := by
  induction l generalizing df0 with
  | nil => simp
  | cons u rest ih =>
    have hu : u ∉ rest := (List.nodup_cons.1 hl).1
    have hr : rest.Nodup := (List.nodup_cons.1 hl).2
    simp only [List.foldl_cons]
    rw [ih hr, alookup_dictAdd_getD]
    by_cases h : u = t
    · subst h
      simp [hu]
    · have h2 : ¬ t = u := fun hh => h hh.symm
      simp [h, h2, List.mem_cons]

theorem foldl_dictAdd_one_isSome (l : List Term)
    (df0 : List (Term × Nat)) (t : Term) :
    (alookup t (l.foldl (fun df u => dictAdd df u 1) df0)).isSome =
      ((alookup t df0).isSome || decide (t ∈ l)) := by
  induction l generalizing df0 with
  | nil => simp
  | cons u rest ih =>
    simp only [List.foldl_cons]
    rw [ih, alookup_dictAdd_isSome]
    by_cases h : u = t
    · subst h
      simp
    · have h2 : ¬ t = u := fun hh => h hh.symm
      simp [h, h2, List.mem_cons]

theorem pass1DocFold_getD (df0 : List (Term × Nat)) (tokens : List Term)
    (t : Term) :
    (alookup t (pass1DocFold df0 tokens)).getD 0 =
      (alookup t df0).getD 0 + (if t ∈ tokens then 1 else 0) := by
  unfold pass1DocFold
  rw [foldl_dictAdd_one_getD _ (List.nodup_dedup tokens)]
  simp [List.mem_dedup]

theorem pass1DocFold_isSome (df0 : List (Term × Nat)) (tokens : List Term)
    (t : Term) :
    (alookup t (pass1DocFold df0 tokens)).isSome =
      ((alookup t df0).isSome || decide (t ∈ tokens)) := by
  unfold pass1DocFold
  rw [foldl_dictAdd_one_isSome]
  simp [List.mem_dedup]

theorem pass1_df_fold_getD (corpus : List (DocId × List Term))
    (df0 : List (Term × Nat)) (t : Term) :
    (alookup t (corpus.foldl (fun df p => pass1DocFold df p.2) df0)).getD 0 =
      (alookup t df0).getD 0 + corpus.countP (fun p => t ∈ p.2) := by
  induction corpus generalizing df0 with
  | nil => simp
  | cons p rest ih =>
    simp only [List.foldl_cons]
    rw [ih, pass1DocFold_getD, List.countP_cons]
    by_cases h : t ∈ p.2
    · simp [h]
      omega
    · simp [h]

/-- The fold of Pass 1 computes, for each term, the number of corpus
entries whose token list contains it. -/
theorem pass1_df_getD (corpus : List (DocId × List Term)) (t : Term) :
    (alookup t (pass1_df corpus)).getD 0 =
      corpus.countP (fun p => t ∈ p.2) := by
  simpa [pass1_df, alookup] using pass1_df_fold_getD corpus [] t

theorem pass1_df_fold_isSome (corpus : List (DocId × List Term))
    (df0 : List (Term × Nat)) (t : Term) :
    (alookup t (corpus.foldl (fun df p => pass1DocFold df p.2) df0)).isSome =
      ((alookup t df0).isSome || corpus.any (fun p => t ∈ p.2)) := by
  induction corpus generalizing df0 with
  | nil => simp
  | cons p rest ih =>
    simp only [List.foldl_cons]
    rw [ih, pass1DocFold_isSome]
    simp [Bool.or_assoc]

/-- A term is a key of the Pass-1 table iff some document contains it. -/
theorem pass1_df_isSome (corpus : List (DocId × List Term)) (t : Term) :
    (alookup t (pass1_df corpus)).isSome =
      corpus.any (fun p => t ∈ p.2) := by
  simpa [pass1_df, alookup] using pass1_df_fold_isSome corpus [] t

/-! ## Claim C4 — document frequency counts distinct documents -/

/-- C4: the Pass-1 document-frequency counter equals, for every term, the
number of corpus documents whose normalised token sequence contains the
term at least once (never the number of occurrences); in particular a
term occurring 5 times in a single document gets `df = 1`. -/
theorem c4_df_counts_documents (tok : List Char → Option (List Term))
    (stem : Term → Term) (stop_words : List Term)
    (corpus : List (DocId × List Char)) (t : Term) :
    (alookup t (pass1_df (corpus.map (fun p =>
        (p.1, process_document tok stem stop_words p.2))))).getD 0 =
      corpus.countP (fun p => t ∈ process_document tok stem stop_words p.2) ∧
    ∀ (d : DocId) (u : Term),
      (alookup u (pass1_df [(d, List.replicate 5 u)])).getD 0 = 1 := by
  constructor
  · rw [pass1_df_getD, List.countP_map]
    rfl
  · intro d u
    rw [pass1_df_getD]
    simp [List.countP_cons, List.mem_replicate]

/-! ## Claim C3 — the stored IDF weights -/

/-- Looking a term up in the stored IDF table. -/
theorem alookup_pass1_idf (total_documents : Nat) (df : List (Term × Nat))
    (t : Term) :
    alookup t (pass1_idf total_documents df) =
      (alookup t df).map
        (fun v => if 0 < v then idfWeight total_documents v else 0) := by
  unfold pass1_idf
  exact alookup_map_snd
    (fun v => if 0 < v then idfWeight total_documents v else 0) df t

/-- C3: after a build over `N` documents, every term occurring in at least
one normalised document has stored IDF weight
`ln((1 + N) / (1 + df(t))) + 1`; the weight is strictly positive, and
equals `1` when the term occurs in every document. -/
theorem c3_idf_formula (tok : List Char → Option (List Term))
    (stem : Term → Term) (stop_words : List Term)
    (corpus : List (DocId × List Char)) (t : Term)
    (h : ∃ p ∈ corpus, t ∈ process_document tok stem stop_words p.2) :
    alookup t (pass1_idf corpus.length (pass1_df (corpus.map (fun p =>
        (p.1, process_document tok stem stop_words p.2))))) =
      some (idfWeight corpus.length
        (corpus.countP (fun p => t ∈ process_document tok stem stop_words p.2))) ∧
    0 < idfWeight corpus.length
      (corpus.countP (fun p => t ∈ process_document tok stem stop_words p.2)) ∧
    (corpus.countP (fun p => t ∈ process_document tok stem stop_words p.2) =
        corpus.length →
      idfWeight corpus.length
        (corpus.countP (fun p => t ∈ process_document tok stem stop_words p.2)) = 1) := by
  have hpos : 0 < corpus.countP
      (fun p => t ∈ process_document tok stem stop_words p.2) := by
    rw [List.countP_pos_iff]
    obtain ⟨p, hp, hpt⟩ := h
    exact ⟨p, hp, by simpa using hpt⟩
  have hposW : 0 < idfWeight corpus.length
      (corpus.countP (fun p => t ∈ process_document tok stem stop_words p.2)) := by
    have hle : corpus.countP
        (fun p => t ∈ process_document tok stem stop_words p.2) ≤ corpus.length :=
      List.countP_le_length _
    unfold idfWeight
    have h1 : (1 : ℝ) ≤ (1 + (corpus.length : ℝ)) /
        (1 + (corpus.countP
          (fun p => t ∈ process_document tok stem stop_words p.2) : ℝ)) := by
      rw [le_div_iff₀ (by positivity)]
      have : ((corpus.countP
          (fun p => t ∈ process_document tok stem stop_words p.2) : ℝ)) ≤
          (corpus.length : ℝ) := by
        exact_mod_cast hle
      linarith
    have h2 := Real.log_nonneg h1
    linarith
  refine ⟨?_, hposW, ?_⟩
  · have hcnt : (corpus.map (fun p =>
        (p.1, process_document tok stem stop_words p.2))).countP
          (fun p => t ∈ p.2) =
        corpus.countP (fun p => t ∈ process_document tok stem stop_words p.2) := by
      rw [List.countP_map]
      rfl
    have hgetD := pass1_df_getD (corpus.map (fun p =>
        (p.1, process_document tok stem stop_words p.2))) t
    rw [hcnt] at hgetD
    rw [alookup_pass1_idf]
    cases hx : alookup t (pass1_df (corpus.map (fun p =>
        (p.1, process_document tok stem stop_words p.2)))) with
    | none =>
      rw [hx, Option.getD_none] at hgetD
      omega
    | some v =>
      rw [hx, Option.getD_some] at hgetD
      subst hgetD
      simp [hpos]
  · intro he
    unfold idfWeight
    rw [he, div_self (by positivity)]
    simp

/-- Witness corpus for `c3_idf_formula`: one document whose normalised
token list contains `"cat"` twice. -/
def c3Corpus : List (DocId × List Char) := [("d1", "cat cat".toList)]

/-- Witness for `c3_idf_formula`. -/
theorem c3_witness :
    (∃ p ∈ c3Corpus, ("cat".toList : Term) ∈
      process_document (fun s => some (pySplit s)) id [] p.2) ∧
    0 < idfWeight c3Corpus.length
      (c3Corpus.countP (fun p => ("cat".toList : Term) ∈
        process_document (fun s => some (pySplit s)) id [] p.2)) :=
  ⟨by decide, (c3_idf_formula (fun s => some (pySplit s)) id [] c3Corpus
    ("cat".toList) (by decide)).2.1⟩

/-! ## The rescaling and ranking stage (claims C5, C9, C10) -/

/-- With an empty inverted index every term contributes nothing. -/
theorem termScoreAt_empty_index (st : EngineState) (avgdl : ℚ) (t : Term)
    (d : DocId) (h : st.inverted_index = []) :
    termScoreAt st avgdl t d = 0 := by
  unfold termScoreAt
  rw [h]
  rfl

/-- With an empty IDF table `idf.get(term, 0)` is `0`, so every
contribution is `0 * (...)`. -/
theorem termScoreAt_empty_idf (st : EngineState) (avgdl : ℚ) (t : Term)
    (d : DocId) (h : st.idf = []) :
    termScoreAt st avgdl t d = 0 := by
  unfold termScoreAt
  cases hl : alookup t st.inverted_index with
  | none => rfl
  | some pl =>
    refine List.sum_eq_zero ?_
    intro x hx
    obtain ⟨p, hp, hpx⟩ := List.mem_map.1 hx
    rw [← hpx, h]
    show bm25_contribution ((alookup t ([] : List (Term × ℚ))).getD 0) _ _ _ = 0
    simp [alookup, bm25_contribution]

/-- The ranked output of `search` is, whenever `top_k` covers all scored
documents and the engine guards pass, a permutation of the scored
documents with their rescaled scores. -/
theorem search_perm_rescaled (st : EngineState) (query_terms : List Term)
    (top_k : Nat) (h1 : st.inverted_index ≠ []) (h2 : st.idf ≠ [])
    (hk : (computeScores st query_terms).length ≤ top_k) :
    List.Perm (search st query_terms top_k)
      ((computeScores st query_terms).map (fun p =>
        (p.1, min 99 ((p.2 / max (max_theoretical query_terms)
          (pyMax ((computeScores st query_terms).map Prod.snd))) * 100)))) := by
  have e1 : st.inverted_index.isEmpty = false := by
    cases hx : st.inverted_index with
    | nil => exact absurd hx h1
    | cons a l => rfl
  have e2 : st.idf.isEmpty = false := by
    cases hx : st.idf with
    | nil => exact absurd hx h2
    | cons a l => rfl
  by_cases hq : query_terms = []
  · subst hq
    simp [search, computeScores]
  · have e3 : query_terms.isEmpty = false := by
      cases query_terms with
      | nil => exact absurd rfl hq
      | cons a l => rfl
    by_cases hs : computeScores st query_terms = []
    · rw [hs]
      simp [search, e1, e2, e3, hs]
    · have e4 : (computeScores st query_terms).isEmpty = false := by
        cases hx : computeScores st query_terms with
        | nil => exact absurd hx hs
        | cons a l => rfl
      simp only [search, e1, e2, e3, e4, Bool.or_self, Bool.false_eq_true,
        if_false]
      rw [List.take_of_length_le]
      · exact List.perm_insertionSort _ _
      · rw [List.length_insertionSort, List.length_map]
        exact hk

/-! ## Claim C5 — rescaling to the display range -/

/-- Modelled from the claim's words, for comparison with `search`: the
same ranking but with `theoretical_max` counting only the matched-capable
query terms (the occurrences present in the inverted index). -/
def searchSpecC5 (st : EngineState) (query_terms : List Term) (top_k : Nat) :
    List (DocId × ℚ) :=
  if st.inverted_index.isEmpty || st.idf.isEmpty then []
  else if query_terms.isEmpty then []
  else
    let scores := computeScores st query_terms
    if scores.isEmpty then []
    else
      let matchable := query_terms.filter
        (fun t => (alookup t st.inverted_index).isSome)
      let max_score := pyMax (scores.map Prod.snd)
      let normalized := scores.map (fun p =>
        (p.1, min 99 ((p.2 / max ((matchable.length : ℚ) * 10) max_score) * 100)))
      let ranked := normalized.insertionSort (fun x y => x.2 ≥ y.2)
      ranked.take top_k

/-- The engine used in the concrete scoring scenarios: one document of
length 1 containing the sole indexed term with IDF weight 1, so its raw
BM25 score for that term is exactly 1. -/
def c5State : EngineState :=
  { inverted_index := [(['a'], [("d1", 1)])]
    document_index := [("d1", 1)]
    idf := [(['a'], 1)] }

unseal Rat.mul Rat.add Rat.sub Rat.inv Rat.ofScientific in
/-- C5, counterexample.  For the query terms `["a", "z"]` — with `"z"`
absent from the vocabulary — the code divides by
`max(10 * 2, max_score) = 20` (all query terms), not
`max(10 * 1, max_score) = 10` (matched-capable terms only): the document
gets display score 5, while the claim's rescaling yields 10. -/
theorem c5_counterexample :
    search c5State [['a'], ['z']] 10 ≠ searchSpecC5 c5State [['a'], ['z']] 10 ∧
    search c5State [['a'], ['z']] 10 = [("d1", 5)] ∧
    searchSpecC5 c5State [['a'], ['z']] 10 = [("d1", 10)] := by
  refine ⟨by decide, by decide, by decide⟩

/-- C5, amended: when at least one document has a nonzero raw score, every
raw score is rescaled to `min(99, raw / max(theoretical_max, observed_max)
* 100)` where `theoretical_max = 10 * (number of processed query term
occurrences — all of them, duplicates and out-of-vocabulary terms
included)` and `observed_max` is the largest raw score. -/
theorem c5_rescaling (st : EngineState) (query_terms : List Term)
    (h3 : ∃ d : DocId, (alookup d (computeScores st query_terms)).getD 0 ≠ 0) :
    List.Perm (search st query_terms (computeScores st query_terms).length)
      ((computeScores st query_terms).map (fun p =>
        (p.1, min 99 ((p.2 /
          max ((query_terms.length : ℚ) * 10)
            (pyMax ((computeScores st query_terms).map Prod.snd))) * 100)))) := by
  obtain ⟨d, hd⟩ := h3
  have h1 : st.inverted_index ≠ [] := by
    intro h
    refine hd ?_
    rw [computeScores_getD]
    exact List.sum_eq_zero fun x hx => by
      obtain ⟨t, _, hts⟩ := List.mem_map.1 hx
      rw [← hts]
      exact termScoreAt_empty_index st _ t d h
  have h2 : st.idf ≠ [] := by
    intro h
    refine hd ?_
    rw [computeScores_getD]
    exact List.sum_eq_zero fun x hx => by
      obtain ⟨t, _, hts⟩ := List.mem_map.1 hx
      rw [← hts]
      exact termScoreAt_empty_idf st _ t d h
  have := search_perm_rescaled st query_terms
    (computeScores st query_terms).length h1 h2 (le_refl _)
  simpa [max_theoretical] using this

unseal Rat.mul Rat.add Rat.sub Rat.inv Rat.ofScientific in
/-- Witness for `c5_rescaling` on the one-document engine. -/
theorem c5_witness :
    (∃ d : DocId, (alookup d (computeScores c5State [['a']])).getD 0 ≠ 0) ∧
    List.Perm (search c5State [['a']] (computeScores c5State [['a']]).length)
      ((computeScores c5State [['a']]).map (fun p =>
        (p.1, min 99 ((p.2 /
          max ((([['a']] : List Term).length : ℚ) * 10)
            (pyMax ((computeScores c5State [['a']]).map Prod.snd))) * 100)))) :=
  ⟨⟨"d1", by decide⟩, c5_rescaling c5State [['a']] ⟨"d1", by decide⟩⟩

/-! ## Claim C9 — descending sort, truncation to `top_k`, no padding -/

/-- C9: the hits are sorted by rescaled score in non-increasing order, at
most `top_k` are returned, and when `top_k` covers every scored document
the result is exactly the scored documents (no padding). -/
theorem c9_sorted_topk (st : EngineState) (query_terms : List Term)
    (top_k : Nat) :
    List.Sorted (fun x y : DocId × ℚ => x.2 ≥ y.2) (search st query_terms top_k) ∧
    (search st query_terms top_k).length ≤ top_k ∧
    (st.inverted_index ≠ [] → st.idf ≠ [] →
      (computeScores st query_terms).length ≤ top_k →
      List.Perm (search st query_terms top_k)
        ((computeScores st query_terms).map (fun p =>
          (p.1, min 99 ((p.2 / max (max_theoretical query_terms)
            (pyMax ((computeScores st query_terms).map Prod.snd))) * 100))))) := by
  refine ⟨?_, ?_, fun h1 h2 hk => search_perm_rescaled st query_terms top_k h1 h2 hk⟩
  · haveI ht : IsTotal (DocId × ℚ) (fun x y => x.2 ≥ y.2) :=
      ⟨fun x y => le_total y.2 x.2⟩
    haveI htr : IsTrans (DocId × ℚ) (fun x y => x.2 ≥ y.2) :=
      ⟨fun x y z hxy hyz => le_trans hyz hxy⟩
    by_cases e0 : (st.inverted_index.isEmpty || st.idf.isEmpty) = true
    · simp [search, e0]
    · by_cases e1 : query_terms.isEmpty = true
      · simp [search, e0, e1]
      · by_cases e2 : (computeScores st query_terms).isEmpty = true
        · simp [search, e0, e1, e2]
        · have hs : search st query_terms top_k =
              (((computeScores st query_terms).map (fun p =>
                (p.1, min 99 ((p.2 / max (max_theoretical query_terms)
                  (pyMax ((computeScores st query_terms).map Prod.snd))) * 100)))).insertionSort
                (fun x y => x.2 ≥ y.2)).take top_k := by
            simp [search, e0, e1, e2]
          rw [hs]
          exact List.Pairwise.sublist (List.take_sublist _ _)
            (List.sorted_insertionSort _ _)
  · by_cases e0 : (st.inverted_index.isEmpty || st.idf.isEmpty) = true
    · simp [search, e0]
    · by_cases e1 : query_terms.isEmpty = true
      · simp [search, e0, e1]
      · by_cases e2 : (computeScores st query_terms).isEmpty = true
        · simp [search, e0, e1, e2]
        · have hs : search st query_terms top_k =
              (((computeScores st query_terms).map (fun p =>
                (p.1, min 99 ((p.2 / max (max_theoretical query_terms)
                  (pyMax ((computeScores st query_terms).map Prod.snd))) * 100)))).insertionSort
                (fun x y => x.2 ≥ y.2)).take top_k := by
            simp [search, e0, e1, e2]
          rw [hs]
          exact List.length_take_le _ _

unseal Rat.mul Rat.add Rat.sub Rat.inv Rat.ofScientific in
/-- Witness for `c9_sorted_topk`'s no-padding branch: `top_k = 3` exceeds
the single scored document. -/
theorem c9_witness :
    c5State.inverted_index ≠ [] ∧ c5State.idf ≠ [] ∧
    (computeScores c5State [['a']]).length ≤ 3 ∧
    List.Perm (search c5State [['a']] 3)
      ((computeScores c5State [['a']]).map (fun p =>
        (p.1, min 99 ((p.2 / max (max_theoretical [['a']])
          (pyMax ((computeScores c5State [['a']]).map Prod.snd))) * 100)))) :=
  ⟨by decide, by decide, by decide,
    (c9_sorted_topk c5State [['a']] 3).2.2 (by decide) (by decide) (by decide)⟩

/-! ## Claim C10 — the query is a list, not a set -/

/-- Engine for the duplicate-query scenario: one document containing two
distinct indexed terms with IDF weights 1 and 8, so its raw scores for
the queries `[a, c]` and `[a, a, c]` are 9 and 10. -/
def dupState : EngineState :=
  { inverted_index := [(['a'], [("d1", 1)]), (['c'], [("d1", 1)])]
    document_index := [("d1", 1)]
    idf := [(['a'], 1), (['c'], 8)] }

unseal Rat.mul Rat.add Rat.sub Rat.inv Rat.ofScientific in
/-- C10: a term occurring `k` times in the processed query accumulates its
BM25 contribution `k` times into each matching document's raw score;
`max_theoretical` adds 10 for every query-term occurrence, duplicates and
out-of-vocabulary terms included (it depends on nothing but the list
length); and duplicating a query term changes both the raw and the
rescaled scores, as the engine `dupState` shows. -/
theorem c10_duplicates_accumulate :
    (∀ (st : EngineState) (t : Term) (k : Nat) (d : DocId),
      (alookup d (computeScores st (List.replicate k t))).getD 0 =
        (k : ℚ) * (alookup d (computeScores st [t])).getD 0) ∧
    (∀ (query_terms : List Term) (t : Term),
      max_theoretical (t :: query_terms) = max_theoretical query_terms + 10) ∧
    computeScores dupState [['a'], ['a'], ['c']] ≠
      computeScores dupState [['a'], ['c']] ∧
    search dupState [['a'], ['a'], ['c']] 1 ≠ search dupState [['a'], ['c']] 1 := by
  refine ⟨?_, ?_, by decide, by decide⟩
  · intro st t k d
    rw [computeScores_getD, computeScores_getD]
    simp [List.map_replicate, List.sum_replicate, nsmul_eq_mul]
  · intro query_terms t
    simp only [max_theoretical, List.length_cons]
    push_cast
    ring

/-! ## Claim C8 — BM25 monotonicity and saturation in `freq` -/

/-- C8: with `idf > 0`, `doc_len > 0`, `avgdl > 0` and the fixed `k1`,
`b`, the per-term BM25 contribution is strictly increasing in `freq` on
`freq > 0`, strictly below `idf * (k1 + 1)`, and converges to
`idf * (k1 + 1)` as the frequency grows without bound. -/
theorem c8_bm25_monotone_bounded (idfT doc_len avgdl : ℚ)
    (hidf : 0 < idfT) (hdl : 0 < doc_len) (havg : 0 < avgdl) :
    (∀ f1 f2 : ℚ, 0 < f1 → f1 < f2 →
      bm25_contribution idfT f1 doc_len avgdl <
        bm25_contribution idfT f2 doc_len avgdl) ∧
    (∀ f : ℚ, 0 < f →
      bm25_contribution idfT f doc_len avgdl < idfT * (k1 + 1)) ∧
    Filter.Tendsto
      (fun n : ℕ => ((bm25_contribution idfT (n : ℚ) doc_len avgdl : ℚ) : ℝ))
      Filter.atTop (nhds ((idfT * (k1 + 1) : ℚ) : ℝ)) := by
  have hdiv : 0 < doc_len / avgdl := div_pos hdl havg
  have hC : 0 < k1 * (1 - b + b * (doc_len / avgdl)) := by
    simp only [k1, b]
    nlinarith
  have hk1 : (0 : ℚ) < k1 + 1 := by
    simp only [k1]
    norm_num
  have hmono : ∀ f1 f2 : ℚ, 0 < f1 → f1 < f2 →
      bm25_contribution idfT f1 doc_len avgdl <
        bm25_contribution idfT f2 doc_len avgdl := by
    intro f1 f2 hf1 h12
    unfold bm25_contribution
    have hd1 : 0 < f1 + k1 * (1 - b + b * (doc_len / avgdl)) := by linarith
    have hd2 : 0 < f2 + k1 * (1 - b + b * (doc_len / avgdl)) := by linarith
    apply mul_lt_mul_of_pos_left _ hidf
    rw [div_lt_div_iff₀ hd1 hd2]
    nlinarith [mul_pos (mul_pos hk1 hC) (sub_pos.2 h12)]
  have hbound : ∀ f : ℚ, 0 < f →
      bm25_contribution idfT f doc_len avgdl < idfT * (k1 + 1) := by
    intro f hf
    unfold bm25_contribution
    have hd : 0 < f + k1 * (1 - b + b * (doc_len / avgdl)) := by linarith
    apply mul_lt_mul_of_pos_left _ hidf
    rw [div_lt_iff₀ hd]
    nlinarith [mul_pos hk1 hC]
  refine ⟨hmono, hbound, ?_⟩
  have hpt : ∀ n : ℕ,
      ((bm25_contribution idfT (n : ℚ) doc_len avgdl : ℚ) : ℝ) =
        ((idfT : ℝ) * (((k1 + 1 : ℚ)) : ℝ)) *
          ((n : ℝ) /
            ((n : ℝ) + ((k1 * (1 - b + b * (doc_len / avgdl)) : ℚ) : ℝ))) := by
    intro n
    unfold bm25_contribution
    push_cast
    ring
  have hlim : Filter.Tendsto
      (fun n : ℕ => (n : ℝ) /
        ((n : ℝ) + ((k1 * (1 - b + b * (doc_len / avgdl)) : ℚ) : ℝ)))
      Filter.atTop (nhds 1) :=
    tendsto_natCast_div_add_atTop _
  have h2 := hlim.const_mul ((idfT : ℝ) * (((k1 + 1 : ℚ)) : ℝ))
  rw [mul_one] at h2
  have h3 : ((idfT * (k1 + 1) : ℚ) : ℝ) =
      (idfT : ℝ) * (((k1 + 1 : ℚ)) : ℝ) := by
    push_cast
    ring
  rw [h3]
  exact Filter.Tendsto.congr (fun n => (hpt n).symm) h2

/-- Witness for `c8_bm25_monotone_bounded` at
`idf = doc_len = avgdl = 1`, frequencies `1 < 2`. -/
theorem c8_witness :
    (0 : ℚ) < 1 ∧
    bm25_contribution 1 1 1 1 < bm25_contribution 1 2 1 1 ∧
    bm25_contribution 1 1 1 1 < 1 * (k1 + 1) :=
  ⟨by norm_num,
    (c8_bm25_monotone_bounded 1 1 1 (by norm_num) (by norm_num)
      (by norm_num)).1 1 2 (by norm_num) (by norm_num),
    (c8_bm25_monotone_bounded 1 1 1 (by norm_num) (by norm_num)
      (by norm_num)).2.1 1 (by norm_num)⟩

/-! ## Claim C1 — index-time vs query-time normalisation -/

/-- The stemming step commutes with the query pipeline's early return on an
empty surviving-token list. -/
theorem map_stem_if_empty (stem : Term → Term) (l : List Term) :
    l.map stem = if l.isEmpty then [] else l.map stem := by
  cases l <;> simp

/-- C1, counterexample.  The claim states that `process_document` and
`_process_query` agree on every raw input; they disagree on
`"http://x cat"`, because only the index-time pipeline deletes URL-like
substrings: the index side normalises to `["cat"]`, the query side to
`["http", "cat"]`.  The tokenizer is instantiated with the shared
whitespace-split fallback, the stemmer with the identity and the stopword
set empty — on these space-separated lower-case words NLTK's
`word_tokenize` and the Snowball stemmer behave the same way. -/
theorem c1_counterexample :
    process_document (fun s => some (pySplit s)) id [] ("http://x cat".toList) ≠
      _process_query (fun s => some (pySplit s)) id [] ("http://x cat".toList) := by
  decide

/-- C1, amended: the two normalisation pipelines agree (for the shared
tokenizer/stemmer/stopword components, i.e. the default English
configuration) exactly on inputs on which the index-time URL-deletion
step `re.sub(r'http\S+|www.\S+', '', ·)` is a no-op after lower-casing;
`_process_query` has no such step. -/
theorem c1_normalization_identity (tok : List Char → Option (List Term))
    (stem : Term → Term) (stop_words : List Term) (text : List Char)
    (h : stripUrls (text.map Char.toLower) = text.map Char.toLower) :
    process_document tok stem stop_words text =
      _process_query tok stem stop_words text := by
  simp only [process_document, _process_query, h]
  rw [← map_stem_if_empty]

/-- Witness for `c1_normalization_identity` at the URL-free input
`"cat sat"`. -/
theorem c1_witness :
    stripUrls (("cat sat".toList).map Char.toLower) =
      ("cat sat".toList).map Char.toLower ∧
    process_document (fun s => some (pySplit s)) id [] ("cat sat".toList) =
      _process_query (fun s => some (pySplit s)) id [] ("cat sat".toList) :=
  ⟨by decide, c1_normalization_identity _ _ _ _ (by decide)⟩

/-! ## Claim C6 — build on an empty corpus -/

/-- C6, counterexample.  `process_corpus` has no emptiness check on any
path: on the empty corpus it reports `"success"` (not an `EmptyCorpus`
error), hands `_save_index` a snapshot of the empty index (so a snapshot
is written), and `load_index` on that snapshot returns `True`. -/
theorem c6_counterexample :
    (process_corpus (fun s => some (pySplit s)) id [] []).status = "success" ∧
    (process_corpus (fun s => some (pySplit s)) id [] []).saved =
      some ⟨some [], some [], some [], some 0⟩ ∧
    (load_index ⟨[], [], [], 0⟩
        (SnapshotInput.parsed ⟨some [], some [], some [], some 0⟩)).1 = true :=
  ⟨rfl, rfl, rfl⟩

/-- C6, amended: calling build with an empty corpus is not rejected —
`process_corpus` completes with status `"success"`, writes a snapshot of
the empty index to disk, and a subsequent load of that snapshot reports
success, whatever the prior in-memory state.  (The empty-corpus rejection
exists only in the API layer outside the engine, `main.py` line 300.) -/
theorem c6_empty_corpus_build_succeeds (tok : List Char → Option (List Term))
    (stem : Term → Term) (stop_words : List Term) :
    (process_corpus tok stem stop_words []).status = "success" ∧
    (process_corpus tok stem stop_words []).saved =
      some ⟨some [], some [], some [], some 0⟩ ∧
    ∀ prior : MemState,
      (load_index prior
        (SnapshotInput.parsed ⟨some [], some [], some [], some 0⟩)).1 = true :=
  ⟨rfl, rfl, fun _ => rfl⟩

/-! ## Claim C7 — load failure and in-memory state -/

/-- C7, counterexample.  The claim states every failing load leaves the
in-memory state at its prior value.  A snapshot that deserialises to a
dict without the required keys falsifies it: `load_index` returns
`False`, but `self.inverted_index` was already reset (indexing.py line
348) before the `KeyError` on `data['inverted_index']` was caught. -/
theorem c7_counterexample :
    (load_index ⟨[(['c', 'a', 't'], [("d1", 2)])], [("d1", 3)], [], 1⟩
        (SnapshotInput.parsed ⟨none, none, none, none⟩)).1 = false ∧
    (load_index ⟨[(['c', 'a', 't'], [("d1", 2)])], [("d1", 3)], [], 1⟩
        (SnapshotInput.parsed ⟨none, none, none, none⟩)).2 ≠
      ⟨[(['c', 'a', 't'], [("d1", 2)])], [("d1", 3)], [], 1⟩ := by
  refine ⟨rfl, fun h => ?_⟩
  simpa [load_index] using congrArg MemState.inverted_index h

/-- C7, amended: `load_index` returns `false` (never an exception) in
every failing case; the in-memory state is left at its prior value when
no snapshot exists or deserialisation fails, but when the snapshot
deserialises to a dict missing the `inverted_index` key the in-memory
inverted index is reset to empty, and when only `document_index` is
missing the inverted index has already been replaced by the snapshot's —
in both cases before the failure is reported. -/
theorem c7_load_failure_behavior (prior : MemState) :
    load_index prior SnapshotInput.missing = (false, prior) ∧
    load_index prior SnapshotInput.unreadable = (false, prior) ∧
    (∀ d : SnapshotData, d.inverted_index = none →
      load_index prior (SnapshotInput.parsed d) =
        (false, { prior with inverted_index := [] })) ∧
    (∀ d : SnapshotData, ∀ inv, d.inverted_index = some inv →
      d.document_index = none →
      load_index prior (SnapshotInput.parsed d) =
        (false, { prior with inverted_index := inv })) ∧
    (∀ d : SnapshotData, (load_index prior (SnapshotInput.parsed d)).1 = false →
      d.inverted_index = none ∨ d.document_index = none) := by
  refine ⟨rfl, rfl, ?_, ?_, ?_⟩
  · intro d hd
    simp [load_index, hd]
  · intro d inv hi hd
    simp [load_index, hi, hd]
  · intro d h
    cases hi : d.inverted_index with
    | none => exact Or.inl rfl
    | some inv =>
      cases hd : d.document_index with
      | none => exact Or.inr rfl
      | some di => simp [load_index, hi, hd] at h

/-- Witness for `c7_load_failure_behavior`: a parsed snapshot with no
`inverted_index` key makes load fail while resetting the index. -/
theorem c7_witness :
    (⟨none, none, none, none⟩ : SnapshotData).inverted_index = none ∧
    load_index ⟨[], [], [], 5⟩ (SnapshotInput.parsed ⟨none, none, none, none⟩) =
      (false, { (⟨[], [], [], 5⟩ : MemState) with inverted_index := [] }) :=
  ⟨rfl, (c7_load_failure_behavior ⟨[], [], [], 5⟩).2.2.1 ⟨none, none, none, none⟩ rfl⟩

end SistemaRI
